import Mathlib

/-!
Verification development for the E.E encryption-job tracking service.

The definitions below are a shallow embedding of the Go sources:
* `internal/core/domain` (job model, lifecycle checks, batch types, errors),
* `internal/core/services` (encryption service, batch service, query engine),
* `internal/secondary/repository` (in-memory job store, batch result store).

Machine integers (`int64` timestamps) are modelled as `Int`; `float64`
progress values and success ratios are modelled as `ℚ` (exact where the code
only ever divides list-length counters); Go strings are Lean `String`s;
`error` results become `Option`/`Except` values, with `none`/`.ok` standing
for Go's `nil` error.
-/

namespace EE

/-- `EncryptionStatus` is a string type in the source (`domain.EncryptionStatus`). -/
abbrev EncryptionStatus := String

/-- `domain.StatusPending`. -/
def StatusPending : EncryptionStatus := "PENDING"

/-- `domain.StatusProgress`. -/
def StatusProgress : EncryptionStatus := "IN_PROGRESS"

/-- `domain.StatusPaused`. -/
def StatusPaused : EncryptionStatus := "PAUSED"

/-- `domain.StatusCompleted`. -/
def StatusCompleted : EncryptionStatus := "COMPLETED"

/-- `domain.StatusFailed`. -/
def StatusFailed : EncryptionStatus := "FAILED"

/-- The five declared status constants, in declaration order. -/
def declaredStatuses : List EncryptionStatus :=
  [StatusPending, StatusProgress, StatusPaused, StatusCompleted, StatusFailed]

/-- `domain.EncryptionJob`.  `Progress` is a `float64` in Go, modelled as `ℚ`;
`CreatedAt`/`UpdatedAt` are `int64` Unix timestamps, modelled as `Int`. -/
structure EncryptionJob where
  id : String
  sourceURL : String
  status : EncryptionStatus
  progress : ℚ
  decryptionKey : String := ""
  error : String := ""
  createdAt : Int
  updatedAt : Int
deriving Repr, DecidableEq

/-- `domain.JobStateError` (the typed state error carried by failed lifecycle checks). -/
structure JobStateError where
  jobID : String
  currentState : EncryptionStatus
  action : String
  message : String
deriving Repr, DecidableEq

/-- `(*JobStateError).Error()`. -/
def JobStateError.errorString (e : JobStateError) : String :=
  "invalid job state transition: cannot " ++ e.action ++ " job " ++ e.jobID ++
    " (current state: " ++ e.currentState ++ ") - " ++ e.message

/-- `(*EncryptionJob).CanPause`: a Go `switch` on the status with cases
`PAUSED`, `COMPLETED`, `FAILED`, `PENDING` (each returning a state error) and
no default case, so every other status string falls through to `nil`. -/
def CanPause (j : EncryptionJob) : Option JobStateError :=
  if j.status = StatusPaused then
    some ⟨j.id, j.status, "pause", "job is already paused"⟩
  else if j.status = StatusCompleted then
    some ⟨j.id, j.status, "pause", "cannot pause a completed job"⟩
  else if j.status = StatusFailed then
    some ⟨j.id, j.status, "pause", "cannot pause a failed job"⟩
  else if j.status = StatusPending then
    some ⟨j.id, j.status, "pause", "cannot pause a pending job"⟩
  else none

/-- `(*EncryptionJob).CanResume`: rejects every status other than `PAUSED`. -/
def CanResume (j : EncryptionJob) : Option JobStateError :=
  if j.status ≠ StatusPaused then
    some ⟨j.id, j.status, "resume", "can only resume paused jobs"⟩
  else none

/-- `(*EncryptionJob).CanStop`: a `switch` with cases `COMPLETED` and `FAILED`
only, and no default case, so every other status string falls through to `nil`. -/
def CanStop (j : EncryptionJob) : Option JobStateError :=
  if j.status = StatusCompleted then
    some ⟨j.id, j.status, "stop", "job is already completed"⟩
  else if j.status = StatusFailed then
    some ⟨j.id, j.status, "stop", "job is already stopped"⟩
  else none

/-- `(*EncryptionJob).IsTerminal`. -/
def IsTerminal (j : EncryptionJob) : Bool :=
  j.status == StatusCompleted || j.status == StatusFailed

/-! ### Batch domain types (`domain/batch.go`) -/

/-- `domain.BatchAction` is a string type in the source. -/
abbrev BatchAction := String

/-- `domain.BatchActionStart`. -/
def BatchActionStart : BatchAction := "start"

/-- `domain.BatchActionPause`. -/
def BatchActionPause : BatchAction := "pause"

/-- `domain.BatchActionResume`. -/
def BatchActionResume : BatchAction := "resume"

/-- `domain.BatchActionStop`. -/
def BatchActionStop : BatchAction := "stop"

/-- `domain.BatchActionRetry`. -/
def BatchActionRetry : BatchAction := "retry"

/-- `domain.BatchOperation`. -/
structure BatchOperation where
  jobIDs : List String
  action : BatchAction
  sourceURLs : List String
deriving Repr, DecidableEq

/-- `services.BatchValidationError`. -/
structure BatchValidationError where
  field : String
  message : String
  value : String := ""
deriving Repr, DecidableEq

/-- `domain.BatchJobError`. -/
structure BatchJobError where
  jobID : String
  error : String
deriving Repr, DecidableEq

/-- `domain.BatchSummary`.  The counters are Go `int`s holding list lengths;
`Duration` is a `time.Duration`, modelled as `Int`. -/
structure BatchSummary where
  totalJobs : Nat
  successCount : Nat
  failureCount : Nat
  duration : Int
deriving Repr, DecidableEq

/-- `domain.BatchResult`.  `StartTime`/`EndTime` are `time.Time` values,
modelled as `Int` instants. -/
structure BatchResult where
  batchID : String
  startTime : Int
  endTime : Int
  action : BatchAction
  successful : List String
  failed : List BatchJobError
  summary : BatchSummary
deriving Repr, DecidableEq

/-- `domain.BatchFilter`.  Pointer-valued optional fields become `Option`. -/
structure BatchFilter where
  startTime : Option Int := none
  endTime : Option Int := none
  action : BatchAction := ""
  status : String := ""
  minSuccess : Option Nat := none
  maxFailures : Option Nat := none
  jobIDs : List String := []
deriving Repr, DecidableEq

/-- `domain.JobHistoryEntry`.  The open `Details` key-value map is modelled by
the only two keys the code ever writes (`"batch_operation"` and
`"batch_size"`, both set by the batch start loop). -/
structure JobHistoryEntry where
  timestamp : Int
  action : String
  status : String
  batchID : String := ""
  error : String := ""
  detailsBatchOperation : Bool := false
  detailsBatchSize : Nat := 0
deriving Repr, DecidableEq

/-! ### Batch validation (`services.validateBatchOperation`) -/

/-- The `validActions` map literal in `validateBatchOperation`. -/
def validActions : List BatchAction :=
  [BatchActionStart, BatchActionPause, BatchActionResume, BatchActionStop, BatchActionRetry]

/-- Membership test against the `validActions` map. -/
def isValidAction (a : BatchAction) : Bool :=
  validActions.contains a

/-- `fmt.Sprintf("%v", slice)` for a string slice: `[a b c]`. -/
def goSliceRepr (xs : List String) : String :=
  "[" ++ String.intercalate " " xs ++ "]"

/-- The action checks at the top of `validateBatchOperation`: empty action is
"required", otherwise an unknown action is "unsupported". -/
def validateActionField (a : BatchAction) : List BatchValidationError :=
  if a = "" then [⟨"action", "action is required", ""⟩]
  else if ¬ isValidAction a then [⟨"action", "unsupported action", a⟩]
  else []

/-- The per-item emptiness loop in `validateBatchOperation`: one error per
empty entry, with the entry's index in the field name (`fieldName[i]`). -/
def emptyItemErrs (fieldName message : String) (i : Nat) :
    List String → List BatchValidationError
  | [] => []
  | x :: rest =>
    (if x = "" then [⟨fieldName ++ "[" ++ toString i ++ "]", message, ""⟩] else []) ++
      emptyItemErrs fieldName message (i + 1) rest

/-- `services.validateBatchOperation`: collects all field-level violations. -/
def validateBatchOperation (op : BatchOperation) : List BatchValidationError :=
  validateActionField op.action ++
    (if op.action = BatchActionStart then
      (if op.sourceURLs = [] then
        [⟨"source_urls", "at least one source URL is required for start action", ""⟩]
      else []) ++
      emptyItemErrs "source_urls" "source URL cannot be empty" 0 op.sourceURLs ++
      (if op.jobIDs ≠ [] then
        [⟨"job_ids", "job_ids should not be provided for start action", goSliceRepr op.jobIDs⟩]
      else [])
    else if op.action = BatchActionPause ∨ op.action = BatchActionResume ∨
        op.action = BatchActionStop ∨ op.action = BatchActionRetry then
      (if op.jobIDs = [] then
        [⟨"job_ids", "at least one job ID is required for " ++ op.action ++ " action", ""⟩]
      else []) ++
      emptyItemErrs "job_ids" "job ID cannot be empty" 0 op.jobIDs ++
      (if op.sourceURLs ≠ [] then
        [⟨"source_urls", "source_urls should not be provided for " ++ op.action ++ " action",
          goSliceRepr op.sourceURLs⟩]
      else [])
    else [])

/-! ### The store (`repository.MemoryRepository` plus the batch-result store) -/

/-- First-match association lookup, the Go map read. -/
def lookupKey {β : Type} : List (String × β) → String → Option β
  | [], _ => none
  | (k, v) :: rest, key => if k = key then some v else lookupKey rest key

/-- Association update, the Go map write (overwrites an existing key). -/
def setKey {β : Type} : List (String × β) → String → β → List (String × β)
  | [], key, v => [(key, v)]
  | (k, w) :: rest, key, v => if k = key then (key, v) :: rest else (k, w) :: setKey rest key v

/-- The persistent state seen by the services: the job map and history map of
`MemoryRepository`, and the keyed batch-result records of the batch store. -/
structure Store where
  jobs : List (String × EncryptionJob)
  history : List (String × List JobHistoryEntry)
  batches : List (String × BatchResult)
deriving Repr, DecidableEq

deriving instance DecidableEq for Except

/-- `MemoryRepository.Create`: rejects a duplicate job ID, otherwise stores the
job under its ID. -/
def repoCreate (st : Store) (job : EncryptionJob) : Except String Store :=
  if (lookupKey st.jobs job.id).isSome then
    .error ("job already exists with ID: " ++ job.id)
  else
    .ok { st with jobs := st.jobs ++ [(job.id, job)] }

/-- `MemoryRepository.Get`: `none` models Go's `(nil, nil)` for a missing job. -/
def repoGet (st : Store) (jobID : String) : Option EncryptionJob :=
  lookupKey st.jobs jobID

/-- The history-map append in `MemoryRepository.AddJobHistory`. -/
def appendHistory : List (String × List JobHistoryEntry) → String → JobHistoryEntry →
    List (String × List JobHistoryEntry)
  | [], jobID, entry => [(jobID, [entry])]
  | (k, es) :: rest, jobID, entry =>
    if k = jobID then (k, es ++ [entry]) :: rest else (k, es) :: appendHistory rest jobID entry

/-- `MemoryRepository.AddJobHistory`: always succeeds. -/
def repoAddJobHistory (st : Store) (jobID : String) (entry : JobHistoryEntry) : Store :=
  { st with history := appendHistory st.history jobID entry }

/-! ### Encryption service (`services.EncryptionService`) -/

/-- `EncryptionService.StartEncryption`: builds a job with a fresh UUID `uid`
(the generator's next value), status `IN_PROGRESS`, progress `0`, timestamps
`now`, and stores it; a store failure is wrapped. -/
def StartEncryption (st : Store) (uid : String) (now : Int) (sourceURL : String) :
    Except String (EncryptionJob × Store) :=
  let job : EncryptionJob :=
    { id := uid, sourceURL := sourceURL, status := StatusProgress, progress := 0,
      createdAt := now, updatedAt := now }
  match repoCreate st job with
  | .error e => .error ("failed to create job: " ++ e)
  | .ok st' => .ok (job, st')

/-- `EncryptionService.GetJobStatus`: a missing job (the repository's
`(nil, nil)`) becomes a "job not found" error. -/
def GetJobStatus (st : Store) (jobID : String) : Except String EncryptionJob :=
  match repoGet st jobID with
  | some j => .ok j
  | none => .error ("job not found: " ++ jobID)

/-- `EncryptionService.PauseJob`: logs the pause and returns `nil` without
touching the store. -/
def PauseJob (st : Store) (_jobID : String) : Except String Store :=
  .ok st

/-- `EncryptionService.ResumeJob`: logs the resume and returns `nil` without
touching the store. -/
def ResumeJob (st : Store) (_jobID : String) : Except String Store :=
  .ok st

/-- `EncryptionService.StopJob`: logs the stop and returns `nil` without
touching the store. -/
def StopJob (st : Store) (_jobID : String) : Except String Store :=
  .ok st

/-! ### Batch orchestrator (`services.BatchService`)

`ProcessBatch` is effectful: it consumes fresh UUIDs, reads the clock, and
issues calls against the encryption service and the repositories.  The
embedding threads the store explicitly, draws fresh IDs from a supply list,
and records the sequence of service calls issued (the call trace), so that
dispatch order and side effects are provable facts.  The `context.Context`
argument becomes a function `Nat → Bool` giving the cancellation state before
each per-item iteration; the in-memory repository (`memory_repository.go`)
never inspects the context, and neither do the dispatch loops of
`ProcessBatch`, so no definition below reads it. -/

/-- One call issued by `ProcessBatch` against the encryption service or a
repository. -/
inductive SvcCall where
  | startEncryptionCall (sourceURL : String)
  | getJobStatusCall (jobID : String)
  | pauseJobCall (jobID : String)
  | resumeJobCall (jobID : String)
  | stopJobCall (jobID : String)
  | addJobHistoryCall (jobID : String)
  | storeBatchResultCall (batchID : String)
deriving Repr, DecidableEq

/-- `BatchService.processJob` (always invoked with `index = 0` by
`ProcessBatch`): fetch the job, run the action's lifecycle check, then invoke
the corresponding single-job operation.  Returns the outcome, the remaining
UUID supply, and the trace of service calls issued. -/
def processJob (st : Store) (supply : List String) (now : Int) (jobID : String)
    (op : BatchOperation) (index : Nat) :
    Except String Store × List String × List SvcCall :=
  match GetJobStatus st jobID with
  | .error e =>
    (.error ("job not found: " ++ jobID ++ " (error: " ++ e ++ ")"), supply,
      [.getJobStatusCall jobID])
  | .ok job =>
    if op.action = BatchActionStart then
      if index ≥ op.sourceURLs.length then
        (.error ("source URL index out of range for job " ++ jobID), supply,
          [.getJobStatusCall jobID])
      else
        let url := op.sourceURLs.getD index ""
        match StartEncryption st (supply.headD "") now url with
        | .error e =>
          (.error ("failed to start encryption for job " ++ jobID ++ ": " ++ e),
            supply.tail, [.getJobStatusCall jobID, .startEncryptionCall url])
        | .ok (_, st') =>
          (.ok st', supply.tail, [.getJobStatusCall jobID, .startEncryptionCall url])
    else if op.action = BatchActionPause then
      match CanPause job with
      | some e =>
        (.error ("cannot pause job " ++ jobID ++ ": " ++ e.errorString), supply,
          [.getJobStatusCall jobID])
      | none =>
        match PauseJob st jobID with
        | .error e =>
          (.error ("failed to pause job " ++ jobID ++ ": " ++ e), supply,
            [.getJobStatusCall jobID, .pauseJobCall jobID])
        | .ok st' => (.ok st', supply, [.getJobStatusCall jobID, .pauseJobCall jobID])
    else if op.action = BatchActionResume then
      match CanResume job with
      | some e =>
        (.error ("cannot resume job " ++ jobID ++ ": " ++ e.errorString), supply,
          [.getJobStatusCall jobID])
      | none =>
        match ResumeJob st jobID with
        | .error e =>
          (.error ("failed to resume job " ++ jobID ++ ": " ++ e), supply,
            [.getJobStatusCall jobID, .resumeJobCall jobID])
        | .ok st' => (.ok st', supply, [.getJobStatusCall jobID, .resumeJobCall jobID])
    else if op.action = BatchActionStop then
      match CanStop job with
      | some e =>
        (.error ("cannot stop job " ++ jobID ++ ": " ++ e.errorString), supply,
          [.getJobStatusCall jobID])
      | none =>
        match StopJob st jobID with
        | .error e =>
          (.error ("failed to stop job " ++ jobID ++ ": " ++ e), supply,
            [.getJobStatusCall jobID, .stopJobCall jobID])
        | .ok st' => (.ok st', supply, [.getJobStatusCall jobID, .stopJobCall jobID])
    else if op.action = BatchActionRetry then
      if job.status ≠ StatusFailed then
        (.error ("job " ++ jobID ++ " is not in failed state (current status: " ++
          job.status ++ ")"), supply, [.getJobStatusCall jobID])
      else
        match StartEncryption st (supply.headD "") now job.sourceURL with
        | .error e =>
          (.error ("failed to retry job " ++ jobID ++ ": " ++ e), supply.tail,
            [.getJobStatusCall jobID, .startEncryptionCall job.sourceURL])
        | .ok (_, st') =>
          (.ok st', supply.tail,
            [.getJobStatusCall jobID, .startEncryptionCall job.sourceURL])
    else
      (.error ("unsupported action " ++ op.action ++ " for job " ++ jobID), supply,
        [.getJobStatusCall jobID])

/-- The accumulating state of one dispatch loop of `ProcessBatch`. -/
structure LoopOut where
  successful : List String
  failed : List BatchJobError
  store : Store
  supply : List String
  trace : List SvcCall
deriving Repr, DecidableEq

/-- The `start` dispatch loop of `ProcessBatch`: one `StartEncryption` per
source URL; a failure is recorded under job ID `"N/A"`; on success a history
entry tagged with the batch ID and batch size is appended (best-effort in the
source, always succeeding in the in-memory store). -/
def runStartItems (batchID : String) (action : BatchAction) (totalJobs : Nat) (now : Int) :
    List String → Store → List String → LoopOut
  | [], st, supply => ⟨[], [], st, supply, []⟩
  | url :: rest, st, supply =>
    match StartEncryption st (supply.headD "") now url with
    | .error e =>
      let out := runStartItems batchID action totalJobs now rest st supply.tail
      ⟨out.successful,
        ⟨"N/A", "Failed to create job for " ++ url ++ ": " ++ e⟩ :: out.failed,
        out.store, out.supply, .startEncryptionCall url :: out.trace⟩
    | .ok (job, st') =>
      let entry : JobHistoryEntry :=
        { timestamp := now, action := action, status := "created", batchID := batchID,
          detailsBatchOperation := true, detailsBatchSize := totalJobs }
      let st'' := repoAddJobHistory st' job.id entry
      let out := runStartItems batchID action totalJobs now rest st'' supply.tail
      ⟨job.id :: out.successful, out.failed, out.store, out.supply,
        .startEncryptionCall url :: .addJobHistoryCall job.id :: out.trace⟩

/-- The non-`start` dispatch loop of `ProcessBatch`: one `processJob` per job
ID; a failure is recorded with the job's ID and the error message, and never
stops the remaining items. -/
def runJobItems (op : BatchOperation) (now : Int) :
    List String → Store → List String → LoopOut
  | [], st, supply => ⟨[], [], st, supply, []⟩
  | jobID :: rest, st, supply =>
    match processJob st supply now jobID op 0 with
    | (.error e, supply', tr) =>
      let out := runJobItems op now rest st supply'
      ⟨out.successful, ⟨jobID, e⟩ :: out.failed, out.store, out.supply, tr ++ out.trace⟩
    | (.ok st', supply', tr) =>
      let out := runJobItems op now rest st' supply'
      ⟨jobID :: out.successful, out.failed, out.store, out.supply, tr ++ out.trace⟩

/-- The per-invocation environment of `ProcessBatch`: the fresh batch ID from
`generateBatchID`, the UUID supply for created jobs, and the two clock
readings (`StartTime` at entry, `EndTime` after the loop). -/
structure BatchEnv where
  batchID : String
  freshIDs : List String
  startNow : Int
  endNow : Int
deriving Repr

/-- What a `ProcessBatch` invocation produces: the returned value (the Go
error for a validation failure carries the full violation list), the final
store, and the trace of service calls issued. -/
structure BatchOutcome where
  result : Except (List BatchValidationError) BatchResult
  store : Store
  trace : List SvcCall

/-- `BatchService.ProcessBatch`.  `ctx` is the cancellation state of the
caller's context before each per-item iteration; it is threaded for the
record, and — exactly as in the source, whose dispatch loops never test the
context and whose in-memory store ignores it — no step below consults it. -/
def ProcessBatch (op : BatchOperation) (st : Store) (_ctx : Nat → Bool) (env : BatchEnv) :
    BatchOutcome :=
  let errs := validateBatchOperation op
  if errs ≠ [] then ⟨.error errs, st, []⟩
  else
    let totalJobs :=
      if op.action = BatchActionStart then op.sourceURLs.length else op.jobIDs.length
    let out :=
      if op.action = BatchActionStart then
        runStartItems env.batchID op.action totalJobs env.startNow op.sourceURLs st env.freshIDs
      else
        runJobItems op env.startNow op.jobIDs st env.freshIDs
    let result : BatchResult :=
      { batchID := env.batchID, startTime := env.startNow, endTime := env.endNow,
        action := op.action, successful := out.successful, failed := out.failed,
        summary :=
          { totalJobs := totalJobs, successCount := out.successful.length,
            failureCount := out.failed.length, duration := env.endNow - env.startNow } }
    let st' : Store :=
      { out.store with
        batches := setKey out.store.batches ("batch:" ++ result.batchID) result }
    ⟨.ok result, st', out.trace ++ [.storeBatchResultCall result.batchID]⟩

/-! ### Batch result store (`repository.RedisBatchRepository`) -/

/-- `RedisBatchRepository.StoreBatchResult`: a `SET` on key
`batch:<batch_id>` (overwriting). -/
def StoreBatchResult (batches : List (String × BatchResult)) (result : BatchResult) :
    List (String × BatchResult) :=
  setKey batches ("batch:" ++ result.batchID) result

/-- `RedisBatchRepository.GetBatchResult`: a `GET` on key `batch:<batch_id>`,
`redis.Nil` becoming the "not found" error. -/
def GetBatchResult (batches : List (String × BatchResult)) (batchID : String) :
    Except String BatchResult :=
  match lookupKey batches ("batch:" ++ batchID) with
  | some r => .ok r
  | none => .error ("batch result not found: " ++ batchID)

/-- The status classification inside `matchesBatchFilter`: the float success
ratio `SuccessCount/TotalJobs` is modelled in `ℚ` (exact and equal to the
`float64` value whenever `TotalJobs > 0`, since both counters are list
lengths far below 2^53; for `TotalJobs = 0` — unreachable for results built
by `ProcessBatch`, whose validation requires a non-empty item list — the Go
float arithmetic yields NaN/Inf and this model is only used under a
`0 < TotalJobs` hypothesis). -/
def batchResultStatus (r : BatchResult) : String :=
  let successRate : ℚ := (r.summary.successCount : ℚ) / (r.summary.totalJobs : ℚ)
  if successRate = 1 then "success"
  else if successRate > 0 then "partial"
  else "failed"

/-- `repository.matchesBatchFilter`: empty filter matches everything;
otherwise the status class must match (if given) and every requested job ID
must appear among the successful or failed entries (if given).  The time and
count fields of `BatchFilter` are never consulted by the source. -/
def matchesBatchFilter (result : BatchResult) (filter : BatchFilter) : Bool :=
  if filter.status = "" ∧ filter.jobIDs = [] then true
  else if filter.status ≠ "" ∧ batchResultStatus result ≠ filter.status then false
  else filter.jobIDs.all fun id =>
    result.successful.contains id || (result.failed.map (·.jobID)).contains id

/-- `RedisBatchRepository.ListBatchResults`: every stored record that matches
the filter (the source iterates `KEYS batch:*`; the model returns them in
storage order, which is all the membership claims need). -/
def ListBatchResults (batches : List (String × BatchResult)) (filter : BatchFilter) :
    List BatchResult :=
  (batches.map Prod.snd).filter (fun r => matchesBatchFilter r filter)

/-! ### Query engine: filtering (`services.matchesFilter`) -/

/-- `domain.JobFilter`: zero values (empty string, `0`) mean "not set". -/
structure JobFilter where
  status : String := ""
  startDate : Int := 0
  endDate : Int := 0
  sourceURL : String := ""
  minProgress : ℚ := 0
deriving Repr, DecidableEq

/-- `pat.isPrefixOf`-based scan over the suffixes of a character list. -/
def charsContain (pat : List Char) : List Char → Bool
  | [] => pat.isPrefixOf []
  | c :: rest => pat.isPrefixOf (c :: rest) || charsContain pat rest

/-- Go `strings.Contains s pat`. -/
def strContains (s pat : String) : Bool :=
  charsContain pat.data s.data

/-- `services.matchesFilter`: all set predicates must hold. -/
def matchesFilter (job : EncryptionJob) (filter : JobFilter) : Bool :=
  if filter.status ≠ "" ∧ job.status ≠ filter.status then false
  else if filter.startDate > 0 ∧ job.createdAt < filter.startDate then false
  else if filter.endDate > 0 ∧ job.createdAt > filter.endDate then false
  else if filter.sourceURL ≠ "" ∧ strContains job.sourceURL filter.sourceURL = false then false
  else if filter.minProgress > 0 ∧ job.progress < filter.minProgress then false
  else true

/-! ### Query engine: sorting (`services.sortJobs`) -/

/-- `domain.SortField`. -/
structure SortField where
  field : String
  order : String
  caseSensitive : Bool := false
deriving Repr, DecidableEq

/-- `domain.JobSort`. -/
structure JobSort where
  fields : List SortField
deriving Repr, DecidableEq

/-- `services.SortFieldCreatedAt`. -/
def SortFieldCreatedAt : String := "created_at"

/-- `services.SortFieldUpdatedAt`. -/
def SortFieldUpdatedAt : String := "updated_at"

/-- `services.SortFieldProgress`. -/
def SortFieldProgress : String := "progress"

/-- `services.SortFieldStatus`. -/
def SortFieldStatus : String := "status"

/-- `services.SortFieldSourceURL`. -/
def SortFieldSourceURL : String := "source_url"

/-- `services.SortFieldID`. -/
def SortFieldID : String := "id"

/-- `services.SortOrderAsc`. -/
def SortOrderAsc : String := "asc"

/-- `services.SortOrderDesc`. -/
def SortOrderDesc : String := "desc"

/-- `services.MaxSortFields`. -/
def MaxSortFields : Nat := 3

/-- Go `strings.ToLower` (character-wise lowercasing; written as a structural
map so that concrete values compute). -/
def strToLower (s : String) : String :=
  ⟨s.data.map Char.toLower⟩

/-- Lexicographic comparison of character lists, the order underlying Go's
byte-lexicographic `strings.Compare` (written structurally so that concrete
values compute). -/
def charsCompare : List Char → List Char → Ordering
  | [], [] => .eq
  | [], _ :: _ => .lt
  | _ :: _, [] => .gt
  | c :: cs, d :: ds =>
    if c < d then .lt else if d < c then .gt else charsCompare cs ds

/-- Go `strings.Compare` (its `-1/0/+1` result as an `Ordering`):
lexicographic on the string's characters. -/
def strCompare (a b : String) : Ordering :=
  charsCompare a.data b.data

/-- `services.compareInt64`. -/
def compareInt64 (a b : Int) : Ordering :=
  if a < b then .lt else if a > b then .gt else .eq

/-- `services.compareFloat64` (`float64` values modelled as `ℚ`). -/
def compareFloat64 (a b : ℚ) : Ordering :=
  if a < b then .lt else if a > b then .gt else .eq

/-- `services.compareStrings`: lowercase both sides first unless the sort
field is case-sensitive. -/
def compareStrings (a b : String) (caseSensitive : Bool) : Ordering :=
  if caseSensitive = false then strCompare (strToLower a) (strToLower b)
  else strCompare a b

/-- `services.getFieldValue`. -/
def getFieldValue (job : EncryptionJob) (field : String) : String :=
  if field = SortFieldStatus then job.status
  else if field = SortFieldSourceURL then job.sourceURL
  else ""

/-- `services.compareValues` (numeric fields). -/
def compareValues (a b : EncryptionJob) (field : String) : Ordering :=
  if field = SortFieldCreatedAt then compareInt64 a.createdAt b.createdAt
  else if field = SortFieldUpdatedAt then compareInt64 a.updatedAt b.updatedAt
  else if field = SortFieldProgress then compareFloat64 a.progress b.progress
  else .eq

/-- One pass of the comparator body in `sortJobs`: the `switch` on the
lowercased field name.  An unknown (or empty) field name leaves the
comparison at `0`, i.e. `.eq`. -/
def fieldComparison (a b : EncryptionJob) (f : SortField) : Ordering :=
  let fd := strToLower f.field
  if fd = SortFieldCreatedAt ∨ fd = SortFieldUpdatedAt ∨ fd = SortFieldProgress then
    compareValues a b fd
  else if fd = SortFieldStatus ∨ fd = SortFieldSourceURL then
    compareStrings (getFieldValue a fd) (getFieldValue b fd) f.caseSensitive
  else if fd = SortFieldID then
    strCompare a.id b.id
  else .eq

/-- The `less` closure passed to `sort.SliceStable` in `sortJobs`: fields are
tried in priority order; the first non-tie decides, honouring the field's
(lowercased, defaulted-to-`asc`) order; all ties yield `false`. -/
def jobLess (fields : List SortField) (a b : EncryptionJob) : Bool :=
  match fields with
  | [] => false
  | f :: rest =>
    let ord := if strToLower f.order = "" then SortOrderAsc else strToLower f.order
    let c := fieldComparison a b f
    if c ≠ .eq then
      (ord == SortOrderAsc && c == Ordering.lt) || (ord == SortOrderDesc && c == Ordering.gt)
    else jobLess rest a b

/-- The default sort installed by `sortJobs` when no fields are given:
`created_at desc`, case-insensitive. -/
def defaultSortFields : List SortField :=
  [{ field := SortFieldCreatedAt, order := SortOrderDesc, caseSensitive := false }]

/-- `services.sortJobs`.  Go's `sort.SliceStable(jobs, less)` returns the
unique permutation of the input that is sorted for `less` and stable (equal
elements keep their input order); for a strict-weak-order `less` that is
exactly `List.insertionSort` under the reflexive relation "`a` may precede
`b`", i.e. `¬ less b a`.  (The source's `error` return is always `nil`.) -/
def sortJobs (jobs : List EncryptionJob) (sortOpts : JobSort) : List EncryptionJob :=
  let fields := if sortOpts.fields = [] then defaultSortFields else sortOpts.fields
  List.insertionSort (fun a b => jobLess fields b a = false) jobs

/-! ### Query engine: validation and pagination (`services.ListJobs`) -/

/-- The `validFields` map literal in `validateSortOptions`. -/
def validSortFields : List String :=
  [SortFieldCreatedAt, SortFieldUpdatedAt, SortFieldProgress, SortFieldStatus,
    SortFieldSourceURL, SortFieldID]

/-- The field loop of `services.validateSortOptions`: the first invalid
(non-empty, case-insensitively unknown) field name or order is reported. -/
def validateSortFields : List SortField → Except String Unit
  | [] => .ok ()
  | f :: rest =>
    if f.field ≠ "" ∧ ¬ validSortFields.contains (strToLower f.field) then
      .error ("invalid sort field: " ++ f.field ++
        ". valid fields are: created_at, updated_at, progress, status, source_url, id")
    else if f.order ≠ "" ∧ strToLower f.order ≠ SortOrderAsc ∧
        strToLower f.order ≠ SortOrderDesc then
      .error ("invalid sort order: " ++ f.order ++ ". valid orders are: asc, desc")
    else validateSortFields rest

/-- `services.validateSortOptions`. -/
def validateSortOptions (sortOpts : JobSort) : Except String Unit :=
  validateSortFields sortOpts.fields

/-- `EncryptionService.ListJobs` given the repository's job collection:
validate the sort options, filter, stably sort, then paginate with clamping
(`start > len` yields an empty slice; `end` is clamped to `len`). -/
def ListJobs (jobs : List EncryptionJob) (limit offset : Nat) (filter : JobFilter)
    (sortOpts : JobSort) : Except String (List EncryptionJob) :=
  match validateSortOptions sortOpts with
  | .error e => .error ("invalid sort options: " ++ e)
  | .ok _ =>
    let filtered := jobs.filter (fun j => matchesFilter j filter)
    let sorted := sortJobs filtered sortOpts
    let start := offset
    let stop := min (offset + limit) sorted.length
    if start > sorted.length then .ok []
    else .ok ((sorted.drop start).take (stop - start))

/-! ### Derived definitions used by the theorems -/

/-- The job literal that `StartEncryption` builds for a retry of `j`. -/
def retriedJob (j : EncryptionJob) (uid : String) (now : Int) : EncryptionJob :=
  { id := uid, sourceURL := j.sourceURL, status := StatusProgress, progress := 0,
    createdAt := now, updatedAt := now }

/-- Projects the job ID out of a `GetJobStatus` call (the first call each
non-`start` batch item issues). -/
def svcGetId : SvcCall → Option String
  | .getJobStatusCall id => some id
  | _ => none

/-- Projects the source URL out of a `StartEncryption` call (the call each
`start` batch item issues). -/
def svcStartUrl : SvcCall → Option String
  | .startEncryptionCall url => some url
  | _ => none

/-- The `BatchResult` literal assembled by `ProcessBatch` after its dispatch
loop. -/
def batchResultOf (env : BatchEnv) (action : BatchAction) (totalJobs : Nat) (out : LoopOut) :
    BatchResult :=
  { batchID := env.batchID, startTime := env.startNow, endTime := env.endNow,
    action := action, successful := out.successful, failed := out.failed,
    summary :=
      { totalJobs := totalJobs, successCount := out.successful.length,
        failureCount := out.failed.length, duration := env.endNow - env.startNow } }

/-- The sort specification of the spec's stability scenario: `status asc`,
then `created_at desc`. -/
def statusAscCreatedDesc : List SortField :=
  [{ field := SortFieldStatus, order := SortOrderAsc, caseSensitive := false },
   { field := SortFieldCreatedAt, order := SortOrderDesc, caseSensitive := false }]

/-- A concrete partially-failed batch result used by the C8 witness. -/
def partialResult : BatchResult :=
  { batchID := "batch-w8", startTime := 0, endTime := 1, action := "pause",
    successful := ["j1"], failed := [⟨"j2", "cannot pause job j2"⟩],
    summary := { totalJobs := 2, successCount := 1, failureCount := 1, duration := 1 } }

/-- Concrete jobs and stores used by witnesses and counterexamples. -/
def jobInProgress : EncryptionJob :=
  { id := "job-a", sourceURL := "s3://bucket/a.mp4", status := StatusProgress,
    progress := 50, createdAt := 100, updatedAt := 110 }

def jobPaused : EncryptionJob :=
  { id := "job-b", sourceURL := "s3://bucket/b.mp4", status := StatusPaused,
    progress := 25, createdAt := 200, updatedAt := 210 }

def jobFailed : EncryptionJob :=
  { id := "job-c", sourceURL := "s3://bucket/c.mp4", status := StatusFailed,
    progress := 75, createdAt := 300, updatedAt := 310 }

def jobInProgress2 : EncryptionJob :=
  { id := "job-d", sourceURL := "s3://bucket/d.mp4", status := StatusProgress,
    progress := 10, createdAt := 400, updatedAt := 410 }

def storeABC : Store :=
  { jobs := [("job-a", jobInProgress), ("job-b", jobPaused), ("job-c", jobFailed)],
    history := [], batches := [] }

def storeABCD : Store :=
  { jobs := [("job-a", jobInProgress), ("job-b", jobPaused), ("job-c", jobFailed),
      ("job-d", jobInProgress2)],
    history := [], batches := [] }

/-! ## Helper lemmas -/

theorem lookupKey_append_some {β : Type} {l : List (String × β)} {k : String} {v : β}
    (l' : List (String × β)) (h : lookupKey l k = some v) :
    lookupKey (l ++ l') k = some v := by
  induction l with
  | nil => simp [lookupKey] at h
  | cons p rest ih =>
    rw [List.cons_append]
    unfold lookupKey at h ⊢
    split at h
    · exact h ▸ (by rw [if_pos ‹_›])
    · rw [if_neg ‹_›]
      exact ih h

theorem ne_of_lookup_some_none {β : Type} {l : List (String × β)} {k k' : String} {v : β}
    (h : lookupKey l k = some v) (h' : lookupKey l k' = none) : k' ≠ k := by
  intro he
  rw [he, h] at h'
  exact Option.some_ne_none v h'

theorem processJob_retry_of_failed
    (st : Store) (supply : List String) (now : Int) (jobID : String) (j : EncryptionJob)
    (op : BatchOperation) (hact : op.action = BatchActionRetry)
    (hget : repoGet st jobID = some j) (hst : j.status = StatusFailed)
    (hfree : lookupKey st.jobs (supply.headD "") = none) :
    processJob st supply now jobID op 0 =
      (.ok { st with
          jobs := st.jobs ++ [(supply.headD "", retriedJob j (supply.headD "") now)] },
        supply.tail, [.getJobStatusCall jobID, .startEncryptionCall j.sourceURL]) := by
  have hG : GetJobStatus st jobID = .ok j := by simp [GetJobStatus, hget]
  have hfree' : lookupKey st.jobs (supply.head?.getD "") = none := by simpa using hfree
  have hS : StartEncryption st (supply.head?.getD "") now j.sourceURL =
      .ok (retriedJob j (supply.head?.getD "") now,
        { st with
          jobs := st.jobs ++ [(supply.head?.getD "", retriedJob j (supply.head?.getD "") now)] }) := by
    simp [StartEncryption, repoCreate, retriedJob, hfree']
  simp [processJob, hG, hact, hst, hS, retriedJob,
    (by decide : BatchActionRetry ≠ BatchActionStart),
    (by decide : BatchActionRetry ≠ BatchActionPause),
    (by decide : BatchActionRetry ≠ BatchActionResume),
    (by decide : BatchActionRetry ≠ BatchActionStop)]

theorem processJob_retry_of_not_failed
    (st : Store) (supply : List String) (now : Int) (jobID : String) (j : EncryptionJob)
    (op : BatchOperation) (hact : op.action = BatchActionRetry)
    (hget : repoGet st jobID = some j) (hst : j.status ≠ StatusFailed) :
    processJob st supply now jobID op 0 =
      (.error ("job " ++ jobID ++ " is not in failed state (current status: " ++
        j.status ++ ")"), supply, [.getJobStatusCall jobID]) := by
  have hG : GetJobStatus st jobID = .ok j := by simp [GetJobStatus, hget]
  simp [processJob, hG, hact, hst,
    (by decide : BatchActionRetry ≠ BatchActionStart),
    (by decide : BatchActionRetry ≠ BatchActionPause),
    (by decide : BatchActionRetry ≠ BatchActionResume),
    (by decide : BatchActionRetry ≠ BatchActionStop)]

theorem CanPause_eq_none_iff (j : EncryptionJob) :
    CanPause j = none ↔
      (j.status ≠ StatusPaused ∧ j.status ≠ StatusCompleted ∧
        j.status ≠ StatusFailed ∧ j.status ≠ StatusPending) := by
  unfold CanPause
  split_ifs <;> simp_all

theorem CanResume_eq_none_iff (j : EncryptionJob) :
    CanResume j = none ↔ j.status = StatusPaused := by
  unfold CanResume
  split_ifs with h
  · simp [h]
  · simp at h
    simp [h]

theorem CanStop_eq_none_iff (j : EncryptionJob) :
    CanStop j = none ↔ (j.status ≠ StatusCompleted ∧ j.status ≠ StatusFailed) := by
  unfold CanStop
  split_ifs <;> simp_all

/-! ## Claims -/

/-- **C1.**  For every job whose status is one of the five enum values, the
lifecycle checks accept an action exactly per the transition table: `pause`
is accepted iff the status is `IN_PROGRESS`, `resume` iff `PAUSED`, `stop`
iff the status is neither `COMPLETED` nor `FAILED`, and `retry` (the inline
check in `processJob`, run against the fetched job, granted a fresh UUID for
the replacement job) succeeds iff the status is `FAILED`; no other status is
accepted for any of these actions. -/
theorem lifecycle_transition_table (j : EncryptionJob) (hj : j.status ∈ declaredStatuses) :
    ((CanPause j = none ↔ j.status = StatusProgress) ∧
     (CanResume j = none ↔ j.status = StatusPaused) ∧
     (CanStop j = none ↔ ¬(j.status = StatusCompleted ∨ j.status = StatusFailed))) ∧
    (∀ (st : Store) (uid : String) (now : Int) (op : BatchOperation),
      op.action = BatchActionRetry →
      repoGet st j.id = some j → lookupKey st.jobs uid = none →
      ((∃ st', (processJob st [uid] now j.id op 0).1 = .ok st') ↔
        j.status = StatusFailed)) := by
  constructor
  · rw [CanPause_eq_none_iff, CanResume_eq_none_iff, CanStop_eq_none_iff]
    simp only [declaredStatuses, List.mem_cons, List.not_mem_nil, or_false] at hj
    rcases hj with h | h | h | h | h <;> rw [h] <;> decide
  · intro st uid now op hact hget hfree
    constructor
    · rintro ⟨st', hok⟩
      by_contra hne
      rw [processJob_retry_of_not_failed st [uid] now j.id j op hact hget hne] at hok
      simp at hok
    · intro hF
      exact ⟨{ st with jobs := st.jobs ++ [(uid, retriedJob j uid now)] }, by
        rw [processJob_retry_of_failed st [uid] now j.id j op hact hget hF (by simpa using hfree)]
        rfl⟩

/-- Witness for C1 at the concrete job `jobFailed`. -/
theorem lifecycle_transition_table_witness :
    jobFailed.status ∈ declaredStatuses ∧
    (((CanPause jobFailed = none ↔ jobFailed.status = StatusProgress) ∧
      (CanResume jobFailed = none ↔ jobFailed.status = StatusPaused) ∧
      (CanStop jobFailed = none ↔
        ¬(jobFailed.status = StatusCompleted ∨ jobFailed.status = StatusFailed))) ∧
     (∀ (st : Store) (uid : String) (now : Int) (op : BatchOperation),
       op.action = BatchActionRetry →
       repoGet st jobFailed.id = some jobFailed → lookupKey st.jobs uid = none →
       ((∃ st', (processJob st [uid] now jobFailed.id op 0).1 = .ok st') ↔
         jobFailed.status = StatusFailed))) :=
  ⟨by decide, lifecycle_transition_table jobFailed (by decide)⟩

/-- **C10.**  For every job whose status string is not one of the five defined
enum values, `CanPause` and `CanStop` report the action as legal (their
status switches have no default case), while `resume` and `retry` still
reject the job. -/
theorem unknown_status_accepted_by_pause_and_stop (j : EncryptionJob)
    (hj : j.status ∉ declaredStatuses) :
    CanPause j = none ∧ CanStop j = none ∧
    CanResume j = some ⟨j.id, j.status, "resume", "can only resume paused jobs"⟩ ∧
    (∀ (st : Store) (supply : List String) (now : Int) (op : BatchOperation),
      op.action = BatchActionRetry → repoGet st j.id = some j →
      (processJob st supply now j.id op 0).1 =
        .error ("job " ++ j.id ++ " is not in failed state (current status: " ++
          j.status ++ ")")) := by
  simp only [declaredStatuses, List.mem_cons, List.not_mem_nil, or_false, not_or] at hj
  obtain ⟨h1, h2, h3, h4, h5⟩ := hj
  refine ⟨?_, ?_, ?_, ?_⟩
  · rw [CanPause_eq_none_iff]
    exact ⟨h3, h4, h5, h1⟩
  · rw [CanStop_eq_none_iff]
    exact ⟨h4, h5⟩
  · unfold CanResume
    rw [if_pos h3]
  · intro st supply now op hact hget
    rw [processJob_retry_of_not_failed st supply now j.id j op hact hget h5]

/-- Witness for C10 at a job whose status is the undeclared string
`"ENCRYPTING"`. -/
theorem unknown_status_witness :
    ({ jobInProgress with status := "ENCRYPTING" } : EncryptionJob).status ∉ declaredStatuses ∧
    (CanPause { jobInProgress with status := "ENCRYPTING" } = none ∧
     CanStop { jobInProgress with status := "ENCRYPTING" } = none ∧
     CanResume { jobInProgress with status := "ENCRYPTING" } =
       some ⟨"job-a", "ENCRYPTING", "resume", "can only resume paused jobs"⟩ ∧
     (∀ (st : Store) (supply : List String) (now : Int) (op : BatchOperation),
       op.action = BatchActionRetry →
       repoGet st "job-a" = some { jobInProgress with status := "ENCRYPTING" } →
       (processJob st supply now "job-a" op 0).1 =
         .error ("job job-a is not in failed state (current status: ENCRYPTING)"))) :=
  ⟨by decide, unknown_status_accepted_by_pause_and_stop _ (by decide)⟩

theorem lookupKey_append_singleton_ne {β : Type} {l : List (String × β)} {k u : String}
    {v : β} (h : k ≠ u) : lookupKey (l ++ [(u, v)]) k = lookupKey l k := by
  induction l with
  | nil =>
    simp only [List.nil_append, lookupKey]
    rw [if_neg (fun he => h he.symm)]
  | cons p rest ih =>
    rw [List.cons_append]
    unfold lookupKey
    split
    · rfl
    · exact ih

theorem if_singleton_eq_nil {α : Type} {c : Prop} [Decidable c] (e : α) :
    ((if c then [e] else []) = ([] : List α)) ↔ ¬c := by
  split_ifs with h <;> simp [h]

theorem emptyItemErrs_eq_nil (f m : String) (xs : List String) :
    ∀ i, emptyItemErrs f m i xs = [] ↔ "" ∉ xs := by
  induction xs with
  | nil => intro i; simp [emptyItemErrs]
  | cons x rest ih =>
    intro i
    unfold emptyItemErrs
    by_cases hx : x = ""
    · subst hx; simp
    · simp [hx, Ne.symm hx, ih]

theorem isValidAction_iff (a : BatchAction) :
    isValidAction a = true ↔
      (a = BatchActionStart ∨ a = BatchActionPause ∨ a = BatchActionResume ∨
        a = BatchActionStop ∨ a = BatchActionRetry) := by
  simp [isValidAction, validActions]

theorem validateActionField_eq_nil (a : BatchAction) :
    validateActionField a = [] ↔ isValidAction a = true := by
  unfold validateActionField
  split_ifs with h1 h2
  · subst h1
    simp [isValidAction, validActions]
    decide
  · simp [h2]
  · simp_all

theorem validateBatchOperation_eq_nil (op : BatchOperation) :
    validateBatchOperation op = [] ↔
      (isValidAction op.action = true ∧
       (op.action = BatchActionStart →
         op.sourceURLs ≠ [] ∧ "" ∉ op.sourceURLs ∧ op.jobIDs = []) ∧
       ((op.action = BatchActionPause ∨ op.action = BatchActionResume ∨
         op.action = BatchActionStop ∨ op.action = BatchActionRetry) →
         op.jobIDs ≠ [] ∧ "" ∉ op.jobIDs ∧ op.sourceURLs = [])) := by
  unfold validateBatchOperation
  by_cases h1 : op.action = BatchActionStart
  · simp [h1, List.append_eq_nil, validateActionField_eq_nil, if_singleton_eq_nil,
      emptyItemErrs_eq_nil, (by decide : isValidAction BatchActionStart = true),
      (by decide : BatchActionStart ≠ BatchActionPause),
      (by decide : BatchActionStart ≠ BatchActionResume),
      (by decide : BatchActionStart ≠ BatchActionStop),
      (by decide : BatchActionStart ≠ BatchActionRetry)]
  · by_cases h2 : op.action = BatchActionPause ∨ op.action = BatchActionResume ∨
        op.action = BatchActionStop ∨ op.action = BatchActionRetry
    · have hval : isValidAction op.action = true := by
        rw [isValidAction_iff]; tauto
      simp [h1, h2, List.append_eq_nil, validateActionField_eq_nil, if_singleton_eq_nil,
        emptyItemErrs_eq_nil, hval]
    · have hval : isValidAction op.action = false := by
        rw [← Bool.not_eq_true, isValidAction_iff]
        tauto
      simp [h1, h2, List.append_eq_nil, validateActionField_eq_nil, hval]

/-- **C3.**  A batch operation with at least one validation violation
(missing or unknown action; `start` with empty `source_urls`, an empty URL,
or non-empty `job_ids`; `pause`/`resume`/`stop`/`retry` with empty
`job_ids`, an empty ID, or non-empty `source_urls` — the second conjunct
proves this enumeration exhaustive) makes `ProcessBatch` return the full
collected violation list and perform no side effect: the store (jobs,
history, batch results) is returned unchanged and no service call is
issued. -/
theorem batch_validation_aborts_all_violations
    (op : BatchOperation) (st : Store) (ctx : Nat → Bool) (env : BatchEnv)
    (hviol : validateBatchOperation op ≠ []) :
    ProcessBatch op st ctx env = ⟨.error (validateBatchOperation op), st, []⟩ ∧
    (∀ op' : BatchOperation, validateBatchOperation op' = [] ↔
      (isValidAction op'.action = true ∧
       (op'.action = BatchActionStart →
         op'.sourceURLs ≠ [] ∧ "" ∉ op'.sourceURLs ∧ op'.jobIDs = []) ∧
       ((op'.action = BatchActionPause ∨ op'.action = BatchActionResume ∨
         op'.action = BatchActionStop ∨ op'.action = BatchActionRetry) →
         op'.jobIDs ≠ [] ∧ "" ∉ op'.jobIDs ∧ op'.sourceURLs = []))) := by
  constructor
  · simp only [ProcessBatch]
    rw [if_pos hviol]
  · exact validateBatchOperation_eq_nil

/-- Witness for C3: a `start` operation with empty `source_urls` and a stray
job ID collects both violations and aborts without touching the store. -/
theorem batch_validation_aborts_witness :
    validateBatchOperation ⟨["j1"], BatchActionStart, []⟩ ≠ [] ∧
    validateBatchOperation ⟨["j1"], BatchActionStart, []⟩ =
      [⟨"source_urls", "at least one source URL is required for start action", ""⟩,
       ⟨"job_ids", "job_ids should not be provided for start action", "[j1]"⟩] ∧
    ProcessBatch ⟨["j1"], BatchActionStart, []⟩ storeABC (fun _ => false)
        ⟨"batch-w", ["u1"], 1000, 1001⟩ =
      ⟨.error (validateBatchOperation ⟨["j1"], BatchActionStart, []⟩), storeABC, []⟩ ∧
    (∀ op' : BatchOperation, validateBatchOperation op' = [] ↔
      (isValidAction op'.action = true ∧
       (op'.action = BatchActionStart →
         op'.sourceURLs ≠ [] ∧ "" ∉ op'.sourceURLs ∧ op'.jobIDs = []) ∧
       ((op'.action = BatchActionPause ∨ op'.action = BatchActionResume ∨
         op'.action = BatchActionStop ∨ op'.action = BatchActionRetry) →
         op'.jobIDs ≠ [] ∧ "" ∉ op'.jobIDs ∧ op'.sourceURLs = []))) := by
  have h := batch_validation_aborts_all_violations ⟨["j1"], BatchActionStart, []⟩ storeABC
    (fun _ => false) ⟨"batch-w", ["u1"], 1000, 1001⟩ (by decide)
  exact ⟨by decide, by decide, h.1, h.2⟩

/-- **C2.**  A retry of a stored job is legal iff the job's status is
`FAILED`; a successful retry creates one new job — fresh id (the next unused
UUID), status `IN_PROGRESS`, progress `0`, the original job's source URL —
and changes nothing else: the original record still reads back unchanged,
and every other key of the store is untouched. -/
theorem retry_creates_fresh_job
    (st : Store) (jobID : String) (j : EncryptionJob) (supply : List String) (now : Int)
    (op : BatchOperation) (hact : op.action = BatchActionRetry)
    (hget : repoGet st jobID = some j) :
    (j.status ≠ StatusFailed →
      (processJob st supply now jobID op 0).1 =
        .error ("job " ++ jobID ++ " is not in failed state (current status: " ++
          j.status ++ ")")) ∧
    (j.status = StatusFailed → lookupKey st.jobs (supply.headD "") = none →
      processJob st supply now jobID op 0 =
        (.ok { st with
            jobs := st.jobs ++ [(supply.headD "", retriedJob j (supply.headD "") now)] },
          supply.tail, [.getJobStatusCall jobID, .startEncryptionCall j.sourceURL]) ∧
      (retriedJob j (supply.headD "") now).sourceURL = j.sourceURL ∧
      (retriedJob j (supply.headD "") now).status = StatusProgress ∧
      (retriedJob j (supply.headD "") now).progress = 0 ∧
      (retriedJob j (supply.headD "") now).id = supply.headD "" ∧
      supply.headD "" ≠ jobID ∧
      repoGet { st with
          jobs := st.jobs ++ [(supply.headD "", retriedJob j (supply.headD "") now)] }
        jobID = some j ∧
      (∀ k, k ≠ supply.headD "" →
        repoGet { st with
            jobs := st.jobs ++ [(supply.headD "", retriedJob j (supply.headD "") now)] } k =
          repoGet st k)) := by
  constructor
  · intro hne
    rw [processJob_retry_of_not_failed st supply now jobID j op hact hget hne]
  · intro hF hfree
    refine ⟨processJob_retry_of_failed st supply now jobID j op hact hget hF hfree,
      rfl, rfl, rfl, rfl, ne_of_lookup_some_none hget hfree, ?_, ?_⟩
    · exact lookupKey_append_some _ hget
    · intro k hk
      exact lookupKey_append_singleton_ne hk

/-- Witness for C2: retrying the concrete failed job `job-c` with fresh UUID
`"uuid-1"`. -/
theorem retry_creates_fresh_job_witness :
    (⟨["job-c"], BatchActionRetry, []⟩ : BatchOperation).action = BatchActionRetry ∧
    repoGet storeABC "job-c" = some jobFailed ∧
    jobFailed.status = StatusFailed ∧
    lookupKey storeABC.jobs "uuid-1" = none ∧
    processJob storeABC ["uuid-1"] 400 "job-c" ⟨["job-c"], BatchActionRetry, []⟩ 0 =
      (.ok { storeABC with
          jobs := storeABC.jobs ++ [("uuid-1", retriedJob jobFailed "uuid-1" 400)] },
        [], [.getJobStatusCall "job-c", .startEncryptionCall "s3://bucket/c.mp4"]) := by
  refine ⟨rfl, by decide, by decide, by decide, ?_⟩
  have h := retry_creates_fresh_job storeABC "job-c" jobFailed ["uuid-1"] 400
    ⟨["job-c"], BatchActionRetry, []⟩ rfl (by decide)
  exact (h.2 (by decide) (by decide)).1

/-- **C5 (code bug).**  The spec's transition table promises that a
successful `pause` moves an `IN_PROGRESS` job to `PAUSED` (and `resume` to
`IN_PROGRESS`, `stop` to `FAILED`) as observed by fetching the job
afterwards.  The code's `PauseJob`/`ResumeJob`/`StopJob` only log and return
`nil` without writing to the store, so each action "succeeds" while a
subsequent fetch still reports the old status: pausing `jobInProgress`
succeeds (both directly and through the batch path) and the job then still
reads `IN_PROGRESS`, not `PAUSED`; likewise for resume and stop. -/
theorem lifecycle_actions_not_persisted :
    (CanPause jobInProgress = none ∧
      PauseJob storeABC "job-a" = .ok storeABC ∧
      (processJob storeABC [] 0 "job-a" ⟨["job-a"], BatchActionPause, []⟩ 0).1 =
        .ok storeABC ∧
      GetJobStatus storeABC "job-a" = .ok jobInProgress ∧
      jobInProgress.status = StatusProgress ∧ jobInProgress.status ≠ StatusPaused) ∧
    (CanResume jobPaused = none ∧
      ResumeJob storeABC "job-b" = .ok storeABC ∧
      GetJobStatus storeABC "job-b" = .ok jobPaused ∧
      jobPaused.status = StatusPaused ∧ jobPaused.status ≠ StatusProgress) ∧
    (CanStop jobInProgress = none ∧
      StopJob storeABC "job-a" = .ok storeABC ∧
      GetJobStatus storeABC "job-a" = .ok jobInProgress ∧
      jobInProgress.status ≠ StatusFailed) := by
  decide

theorem processJob_trace_getIds (st : Store) (supply : List String) (now : Int)
    (jobID : String) (op : BatchOperation) (index : Nat) :
    (processJob st supply now jobID op index).2.2.filterMap svcGetId = [jobID] := by
  unfold processJob
  repeat' split
  all_goals try simp [svcGetId]
  all_goals
    generalize StartEncryption _ _ _ _ = x
  all_goals rcases x with e | ⟨f2, s2⟩ <;> simp [svcGetId]

theorem StartEncryption_ok_id {st : Store} {uid : String} {now : Int} {url : String}
    {job : EncryptionJob} {st' : Store}
    (h : StartEncryption st uid now url = .ok (job, st')) : job.id = uid := by
  by_cases hdup : (lookupKey st.jobs uid).isSome = true
  · simp [StartEncryption, repoCreate, hdup] at h
  · simp [StartEncryption, repoCreate, hdup] at h
    rw [← h.1]

theorem runJobItems_spec (op : BatchOperation) (now : Int) :
    ∀ (items : List String) (st : Store) (supply : List String),
      (runJobItems op now items st supply).successful.length +
        (runJobItems op now items st supply).failed.length = items.length ∧
      List.Sublist (runJobItems op now items st supply).successful items ∧
      List.Sublist ((runJobItems op now items st supply).failed.map (·.jobID)) items ∧
      (runJobItems op now items st supply).trace.filterMap svcGetId = items
  | [], st, supply => by simp [runJobItems]
  | jobID :: rest, st, supply => by
    have htr := processJob_trace_getIds st supply now jobID op 0
    unfold runJobItems
    rcases hpj : processJob st supply now jobID op 0 with ⟨res, supply', tr⟩
    rw [hpj] at htr
    simp only at htr
    rcases res with e | st'
    · have ih := runJobItems_spec op now rest st supply'
      simp only [List.filterMap_append, htr, ih.2.2.2, List.length_cons]
      refine ⟨by have := ih.1; omega, ih.2.1.cons jobID, ?_, rfl⟩
      exact List.Sublist.cons₂ jobID ih.2.2.1
    · have ih := runJobItems_spec op now rest st' supply'
      simp only [List.filterMap_append, htr, ih.2.2.2, List.length_cons]
      refine ⟨by have := ih.1; omega, ?_, ih.2.2.1.cons jobID, rfl⟩
      exact List.Sublist.cons₂ jobID ih.2.1

theorem runStartItems_spec (batchID : String) (action : BatchAction) (totalJobs : Nat)
    (now : Int) :
    ∀ (urls : List String) (st : Store) (supply : List String),
      (runStartItems batchID action totalJobs now urls st supply).successful.length +
        (runStartItems batchID action totalJobs now urls st supply).failed.length =
        urls.length ∧
      (runStartItems batchID action totalJobs now urls st supply).trace.filterMap
        svcStartUrl = urls ∧
      (urls.length ≤ supply.length →
        List.Sublist (runStartItems batchID action totalJobs now urls st supply).successful
          supply)
  | [], st, supply => by simp [runStartItems]
  | url :: rest, st, supply => by
    unfold runStartItems
    rcases hse : StartEncryption st (supply.headD "") now url with e | ⟨job, st'⟩
    · have ih := runStartItems_spec batchID action totalJobs now rest st supply.tail
      simp only [List.length_cons, List.filterMap_cons, svcStartUrl, ih.2.1]
      refine ⟨by have := ih.1; omega, trivial, ?_⟩
      intro hlen
      refine (ih.2.2 ?_).trans (List.tail_sublist supply)
      have := List.length_tail supply
      omega
    · have hid := StartEncryption_ok_id hse
      have ih := runStartItems_spec batchID action totalJobs now rest
        (repoAddJobHistory st' job.id
          { timestamp := now, action := action, status := "created", batchID := batchID,
            detailsBatchOperation := true, detailsBatchSize := totalJobs })
        supply.tail
      simp only [List.length_cons, List.filterMap_cons, svcStartUrl, ih.2.1]
      refine ⟨by have := ih.1; omega, trivial, ?_⟩
      intro hlen
      rcases supply with _ | ⟨u, sup'⟩
      · simp at hlen
      · have hu : job.id = u := hid
        subst hu
        exact List.Sublist.cons₂ job.id (ih.2.2 (by simp at hlen ⊢; omega))

theorem ProcessBatch_start_eq (op : BatchOperation) (st : Store) (ctx : Nat → Bool)
    (env : BatchEnv) (hv : validateBatchOperation op = [])
    (hstart : op.action = BatchActionStart) :
    ProcessBatch op st ctx env =
      ⟨.ok (batchResultOf env op.action op.sourceURLs.length
          (runStartItems env.batchID op.action op.sourceURLs.length env.startNow
            op.sourceURLs st env.freshIDs)),
        { (runStartItems env.batchID op.action op.sourceURLs.length env.startNow
            op.sourceURLs st env.freshIDs).store with
          batches := setKey (runStartItems env.batchID op.action op.sourceURLs.length
              env.startNow op.sourceURLs st env.freshIDs).store.batches
            ("batch:" ++ env.batchID)
            (batchResultOf env op.action op.sourceURLs.length
              (runStartItems env.batchID op.action op.sourceURLs.length env.startNow
                op.sourceURLs st env.freshIDs)) },
        (runStartItems env.batchID op.action op.sourceURLs.length env.startNow
          op.sourceURLs st env.freshIDs).trace ++ [.storeBatchResultCall env.batchID]⟩ := by
  simp [ProcessBatch, hv, hstart, batchResultOf]

theorem ProcessBatch_nonstart_eq (op : BatchOperation) (st : Store) (ctx : Nat → Bool)
    (env : BatchEnv) (hv : validateBatchOperation op = [])
    (hstart : op.action ≠ BatchActionStart) :
    ProcessBatch op st ctx env =
      ⟨.ok (batchResultOf env op.action op.jobIDs.length
          (runJobItems op env.startNow op.jobIDs st env.freshIDs)),
        { (runJobItems op env.startNow op.jobIDs st env.freshIDs).store with
          batches := setKey (runJobItems op env.startNow op.jobIDs st env.freshIDs).store.batches
            ("batch:" ++ env.batchID)
            (batchResultOf env op.action op.jobIDs.length
              (runJobItems op env.startNow op.jobIDs st env.freshIDs)) },
        (runJobItems op env.startNow op.jobIDs st env.freshIDs).trace ++
          [.storeBatchResultCall env.batchID]⟩ := by
  simp [ProcessBatch, hv, hstart, batchResultOf]

/-- **C4.**  Once validation passes, `ProcessBatch` dispatches every
requested item in input order regardless of earlier failures (the trace of
first-level service calls, projected per item, is exactly the input list),
classifies each item into exactly one of `successful`/`failed` (the two
lists partition the items, each preserving input order: both are sublists of
the job-ID list for non-`start` actions, and for `start` the successful new
job IDs follow the UUID supply in order), and reports `total_jobs` as the
number of requested items with `success_count`/`failure_count` equal to the
lengths of the two lists. -/
theorem batch_processes_all_items
    (op : BatchOperation) (st : Store) (ctx : Nat → Bool) (env : BatchEnv)
    (hv : validateBatchOperation op = []) :
    ∃ result : BatchResult, (ProcessBatch op st ctx env).result = .ok result ∧
      result.summary.totalJobs =
        (if op.action = BatchActionStart then op.sourceURLs.length else op.jobIDs.length) ∧
      result.summary.successCount = result.successful.length ∧
      result.summary.failureCount = result.failed.length ∧
      result.successful.length + result.failed.length = result.summary.totalJobs ∧
      (op.action ≠ BatchActionStart →
        List.Sublist result.successful op.jobIDs ∧
        List.Sublist (result.failed.map (·.jobID)) op.jobIDs ∧
        (ProcessBatch op st ctx env).trace.filterMap svcGetId = op.jobIDs) ∧
      (op.action = BatchActionStart →
        (ProcessBatch op st ctx env).trace.filterMap svcStartUrl = op.sourceURLs ∧
        (op.sourceURLs.length ≤ env.freshIDs.length →
          List.Sublist result.successful env.freshIDs)) := by
  by_cases hstart : op.action = BatchActionStart
  · have heq := ProcessBatch_start_eq op st ctx env hv hstart
    have hspec := runStartItems_spec env.batchID op.action op.sourceURLs.length env.startNow
      op.sourceURLs st env.freshIDs
    refine ⟨_, by rw [heq], ?_, rfl, rfl, ?_, ?_, ?_⟩
    · simp [hstart, batchResultOf]
    · exact hspec.1
    · intro h; exact absurd hstart h
    · intro _
      constructor
      · rw [heq]
        simp only [List.filterMap_append, hspec.2.1]
        simp [svcStartUrl]
      · exact hspec.2.2
  · have heq := ProcessBatch_nonstart_eq op st ctx env hv hstart
    have hspec := runJobItems_spec op env.startNow op.jobIDs st env.freshIDs
    refine ⟨_, by rw [heq], ?_, rfl, rfl, ?_, ?_, ?_⟩
    · simp [hstart, batchResultOf]
    · exact hspec.1
    · intro _
      refine ⟨hspec.2.1, hspec.2.2.1, ?_⟩
      rw [heq]
      simp only [List.filterMap_append, hspec.2.2.2]
      simp [svcGetId]
    · intro h; exact absurd h hstart

/-- Witness for C4: the spec's partial-failure scenario — three job IDs for
`pause` against the concrete store where exactly one (`job-b`) is already
paused. -/
theorem batch_processes_all_items_witness :
    validateBatchOperation ⟨["job-a", "job-d", "job-b"], BatchActionPause, []⟩ = [] ∧
    (∃ result : BatchResult,
      (ProcessBatch ⟨["job-a", "job-d", "job-b"], BatchActionPause, []⟩ storeABCD
          (fun _ => false) ⟨"batch-4", [], 700, 701⟩).result = .ok result ∧
      result.summary.totalJobs =
        (if (⟨["job-a", "job-d", "job-b"], BatchActionPause, []⟩ : BatchOperation).action =
            BatchActionStart then
          (⟨["job-a", "job-d", "job-b"], BatchActionPause, []⟩ : BatchOperation).sourceURLs.length
        else
          (⟨["job-a", "job-d", "job-b"], BatchActionPause, []⟩ : BatchOperation).jobIDs.length) ∧
      result.summary.successCount = result.successful.length ∧
      result.summary.failureCount = result.failed.length ∧
      result.successful.length + result.failed.length = result.summary.totalJobs ∧
      ((⟨["job-a", "job-d", "job-b"], BatchActionPause, []⟩ : BatchOperation).action ≠
          BatchActionStart →
        List.Sublist result.successful ["job-a", "job-d", "job-b"] ∧
        List.Sublist (result.failed.map (·.jobID)) ["job-a", "job-d", "job-b"] ∧
        (ProcessBatch ⟨["job-a", "job-d", "job-b"], BatchActionPause, []⟩ storeABCD
            (fun _ => false) ⟨"batch-4", [], 700, 701⟩).trace.filterMap svcGetId =
          ["job-a", "job-d", "job-b"]) ∧
      ((⟨["job-a", "job-d", "job-b"], BatchActionPause, []⟩ : BatchOperation).action =
          BatchActionStart →
        (ProcessBatch ⟨["job-a", "job-d", "job-b"], BatchActionPause, []⟩ storeABCD
            (fun _ => false) ⟨"batch-4", [], 700, 701⟩).trace.filterMap svcStartUrl =
          (⟨["job-a", "job-d", "job-b"], BatchActionPause, []⟩ : BatchOperation).sourceURLs ∧
        ((⟨["job-a", "job-d", "job-b"], BatchActionPause, []⟩ : BatchOperation).sourceURLs.length ≤
            ([] : List String).length →
          List.Sublist result.successful ([] : List String)))) ∧
    (ProcessBatch ⟨["job-a", "job-d", "job-b"], BatchActionPause, []⟩ storeABCD
        (fun _ => false) ⟨"batch-4", [], 700, 701⟩).result =
      .ok (batchResultOf ⟨"batch-4", [], 700, 701⟩ BatchActionPause 3
        ⟨["job-a", "job-d"],
          [⟨"job-b", "cannot pause job job-b: invalid job state transition: cannot pause " ++
            "job job-b (current state: PAUSED) - job is already paused"⟩],
          storeABCD, [],
          [.getJobStatusCall "job-a", .pauseJobCall "job-a", .getJobStatusCall "job-d",
            .pauseJobCall "job-d", .getJobStatusCall "job-b"]⟩) := by
  refine ⟨by decide, ?_, by decide⟩
  exact batch_processes_all_items ⟨["job-a", "job-d", "job-b"], BatchActionPause, []⟩
    storeABCD (fun _ => false) ⟨"batch-4", [], 700, 701⟩ (by decide)

/-- **C9 (corrected), counterexample.**  The claim says a cancelled context
stops further per-item dispatch ("items after the cancellation point are
never dispatched").  Here the context is cancelled before the first item
(`ctx 0 = true`), yet `ProcessBatch` still dispatches both items — the trace
contains the `GetJobStatus` call of the second item — because its loops
never consult the context (and the in-memory store ignores it). -/
theorem batch_cancellation_ignored_cex :
    ((fun _ : Nat => true) 0 = true) ∧
    (ProcessBatch ⟨["job-a", "job-b"], BatchActionPause, []⟩ storeABC (fun _ => true)
        ⟨"batch-9", [], 500, 501⟩).trace =
      [.getJobStatusCall "job-a", .pauseJobCall "job-a", .getJobStatusCall "job-b",
        .storeBatchResultCall "batch-9"] ∧
    SvcCall.getJobStatusCall "job-b" ∈
      (ProcessBatch ⟨["job-a", "job-b"], BatchActionPause, []⟩ storeABC (fun _ => true)
        ⟨"batch-9", [], 500, 501⟩).trace := by
  decide

/-- **C9 (corrected), amended claim.**  `ProcessBatch` performs no
cooperative cancellation check between items: its entire outcome (result,
store, trace) is independent of the context's cancellation state, and after
validation every requested item is dispatched exactly once, in input order,
whatever the cancellation state. -/
theorem batch_dispatch_ignores_cancellation
    (op : BatchOperation) (st : Store) (ctx ctx' : Nat → Bool) (env : BatchEnv) :
    ProcessBatch op st ctx env = ProcessBatch op st ctx' env ∧
    (validateBatchOperation op = [] → op.action ≠ BatchActionStart →
      (ProcessBatch op st ctx env).trace.filterMap svcGetId = op.jobIDs) ∧
    (validateBatchOperation op = [] → op.action = BatchActionStart →
      (ProcessBatch op st ctx env).trace.filterMap svcStartUrl = op.sourceURLs) := by
  refine ⟨rfl, ?_, ?_⟩
  · intro hv hns
    obtain ⟨r, _, _, _, _, _, hn, _⟩ := batch_processes_all_items op st ctx env hv
    exact (hn hns).2.2
  · intro hv hs
    obtain ⟨r, _, _, _, _, _, _, hstart⟩ := batch_processes_all_items op st ctx env hv
    exact (hstart hs).1

/-- Witness for the amended C9 claim: both items of a cancelled pause batch
are still dispatched. -/
theorem batch_dispatch_ignores_cancellation_witness :
    validateBatchOperation ⟨["job-a", "job-b"], BatchActionPause, []⟩ = [] ∧
    (⟨["job-a", "job-b"], BatchActionPause, []⟩ : BatchOperation).action ≠
      BatchActionStart ∧
    (ProcessBatch ⟨["job-a", "job-b"], BatchActionPause, []⟩ storeABC (fun _ => true)
        ⟨"batch-9", [], 500, 501⟩).trace.filterMap svcGetId = ["job-a", "job-b"] :=
  ⟨by decide, by decide,
    (batch_dispatch_ignores_cancellation ⟨["job-a", "job-b"], BatchActionPause, []⟩
      storeABC (fun _ => true) (fun _ => false) ⟨"batch-9", [], 500, 501⟩).2.1
      (by decide) (by decide)⟩



theorem charsCompare_eq_iff : ∀ (xs ys : List Char), charsCompare xs ys = .eq ↔ xs = ys
  | [], [] => by simp [charsCompare]
  | [], _ :: _ => by simp [charsCompare]
  | _ :: _, [] => by simp [charsCompare]
  | c :: cs, d :: ds => by
    unfold charsCompare
    split_ifs with h1 h2
    · simp [ne_of_lt h1]
    · simp [ne_of_gt h2]
    · have hcd : c = d := le_antisymm (not_lt.mp h2) (not_lt.mp h1)
      simp [hcd, charsCompare_eq_iff cs ds]

theorem charsCompare_swap : ∀ (xs ys : List Char),
    charsCompare ys xs = (charsCompare xs ys).swap
  | [], [] => rfl
  | [], _ :: _ => rfl
  | _ :: _, [] => rfl
  | c :: cs, d :: ds => by
    unfold charsCompare
    split_ifs with h1 h2
    · exact absurd h2 (lt_asymm h1)
    · rfl
    · rfl
    · exact charsCompare_swap cs ds

theorem charsCompare_lt_trans : ∀ (xs ys zs : List Char),
    charsCompare xs ys = .lt → charsCompare ys zs = .lt → charsCompare xs zs = .lt := by
  intro xs
  induction xs with
  | nil =>
    intro ys zs h1 h2
    rcases zs with _ | ⟨z, zs'⟩
    · rcases ys with _ | ⟨y, ys'⟩
      · simp [charsCompare] at h1
      · simp [charsCompare] at h2
    · simp [charsCompare]
  | cons x xs ih =>
    intro ys zs h1 h2
    rcases ys with _ | ⟨y, ys'⟩
    · simp [charsCompare] at h1
    · rcases zs with _ | ⟨z, zs'⟩
      · simp [charsCompare] at h2
      · unfold charsCompare at h1 h2 ⊢
        by_cases hxy : x < y
        · by_cases hyz : y < z
          · rw [if_pos (lt_trans hxy hyz)]
          · rw [if_neg hyz] at h2
            by_cases hzy : z < y
            · rw [if_pos hzy] at h2
              exact absurd h2 (by decide)
            · rw [if_neg hzy] at h2
              have hyz' : y = z := le_antisymm (not_lt.mp hzy) (not_lt.mp hyz)
              rw [if_pos (hyz' ▸ hxy)]
        · rw [if_neg hxy] at h1
          by_cases hyx : y < x
          · rw [if_pos hyx] at h1
            exact absurd h1 (by decide)
          · rw [if_neg hyx] at h1
            have hxy' : x = y := le_antisymm (not_lt.mp hyx) (not_lt.mp hxy)
            subst hxy'
            by_cases hxz : x < z
            · rw [if_pos hxz]
            · rw [if_neg hxz] at h2 ⊢
              by_cases hzx : z < x
              · rw [if_pos hzx] at h2
                exact absurd h2 (by decide)
              · rw [if_neg hzx] at h2 ⊢
                exact ih ys' zs' h1 h2

theorem strCompare_eq_iff (a b : String) : strCompare a b = .eq ↔ a = b := by
  unfold strCompare
  rw [charsCompare_eq_iff]
  constructor
  · intro h
    rcases a with ⟨da⟩
    rcases b with ⟨db⟩
    exact congrArg String.mk h
  · intro h
    rw [h]

theorem strCompare_swap (a b : String) : strCompare b a = (strCompare a b).swap :=
  charsCompare_swap a.data b.data

theorem strCompare_lt_trans {a b c : String} (h1 : strCompare a b = .lt)
    (h2 : strCompare b c = .lt) : strCompare a c = .lt :=
  charsCompare_lt_trans a.data b.data c.data h1 h2

theorem compareInt64_lt_iff (a b : Int) : compareInt64 a b = .lt ↔ a < b := by
  unfold compareInt64
  split_ifs with h1 h2 <;> simp <;> omega

theorem compareInt64_gt_iff (a b : Int) : compareInt64 a b = .gt ↔ b < a := by
  unfold compareInt64
  split_ifs with h1 h2 <;> simp <;> omega

theorem compareInt64_eq_iff (a b : Int) : compareInt64 a b = .eq ↔ a = b := by
  unfold compareInt64
  split_ifs with h1 h2 <;> simp <;> omega

theorem fieldComparison_status (a b : EncryptionJob) (ord : String) :
    fieldComparison a b ⟨SortFieldStatus, ord, false⟩ =
      strCompare (strToLower a.status) (strToLower b.status) := by
  simp [fieldComparison, getFieldValue, compareStrings,
    (by decide : (strToLower SortFieldStatus = SortFieldCreatedAt ∨
      strToLower SortFieldStatus = SortFieldUpdatedAt ∨
      strToLower SortFieldStatus = SortFieldProgress) = False),
    (by decide : (strToLower SortFieldStatus = SortFieldStatus ∨
      strToLower SortFieldStatus = SortFieldSourceURL) = True),
    (by decide : (strToLower SortFieldStatus = SortFieldStatus) = True)]

theorem fieldComparison_created (a b : EncryptionJob) (ord : String) (cs : Bool) :
    fieldComparison a b ⟨SortFieldCreatedAt, ord, cs⟩ =
      compareInt64 a.createdAt b.createdAt := by
  simp [fieldComparison, compareValues,
    (by decide : (strToLower SortFieldCreatedAt = SortFieldCreatedAt ∨
      strToLower SortFieldCreatedAt = SortFieldUpdatedAt ∨
      strToLower SortFieldCreatedAt = SortFieldProgress) = True),
    (by decide : (strToLower SortFieldCreatedAt = SortFieldCreatedAt) = True)]

theorem fieldComparison_id (a b : EncryptionJob) (ord : String) (cs : Bool) :
    fieldComparison a b ⟨SortFieldID, ord, cs⟩ = strCompare a.id b.id := by
  simp [fieldComparison,
    (by decide : (strToLower SortFieldID = SortFieldCreatedAt ∨
      strToLower SortFieldID = SortFieldUpdatedAt ∨
      strToLower SortFieldID = SortFieldProgress) = False),
    (by decide : (strToLower SortFieldID = SortFieldStatus ∨
      strToLower SortFieldID = SortFieldSourceURL) = False),
    (by decide : (strToLower SortFieldID = SortFieldID) = True)]

theorem jobLess_first_decides (f : SortField) (rest : List SortField)
    (a b : EncryptionJob) (h : fieldComparison a b f ≠ .eq) :
    jobLess (f :: rest) a b = jobLess [f] a b := by
  simp [jobLess, h]

theorem jobLess_tie_next (f : SortField) (rest : List SortField)
    (a b : EncryptionJob) (h : fieldComparison a b f = .eq) :
    jobLess (f :: rest) a b = jobLess rest a b := by
  simp [jobLess, h]

theorem jobLess_sacd_of_lt (a b : EncryptionJob)
    (h : strCompare (strToLower a.status) (strToLower b.status) = .lt) :
    jobLess statusAscCreatedDesc a b = true := by
  have hs := (fieldComparison_status a b SortOrderAsc).trans h
  simp [statusAscCreatedDesc, jobLess, hs,
    (by decide : strToLower SortOrderAsc = SortOrderAsc),
    (by decide : (SortOrderAsc = ("" : String)) = False),
    (by decide : (SortOrderAsc == SortOrderDesc) = false),
    (by decide : (Ordering.lt == Ordering.lt) = true)]

theorem jobLess_sacd_of_gt (a b : EncryptionJob)
    (h : strCompare (strToLower a.status) (strToLower b.status) = .gt) :
    jobLess statusAscCreatedDesc a b = false := by
  have hs := (fieldComparison_status a b SortOrderAsc).trans h
  simp [statusAscCreatedDesc, jobLess, hs,
    (by decide : strToLower SortOrderAsc = SortOrderAsc),
    (by decide : (SortOrderAsc = ("" : String)) = False),
    (by decide : (SortOrderAsc == SortOrderDesc) = false),
    (by decide : (Ordering.gt == Ordering.lt) = false)]

theorem jobLess_sacd_of_eq (a b : EncryptionJob)
    (h : strCompare (strToLower a.status) (strToLower b.status) = .eq) :
    jobLess statusAscCreatedDesc a b =
      (compareInt64 a.createdAt b.createdAt == Ordering.gt) := by
  have hs := (fieldComparison_status a b SortOrderAsc).trans h
  have hcr := fieldComparison_created a b SortOrderDesc false
  rcases hc2 : compareInt64 a.createdAt b.createdAt with _ | _ | _ <;>
    rw [hc2] at hcr <;>
    simp [statusAscCreatedDesc, jobLess, hs, hcr,
      (by decide : strToLower SortOrderAsc = SortOrderAsc),
      (by decide : strToLower SortOrderDesc = SortOrderDesc),
      (by decide : (SortOrderAsc = ("" : String)) = False),
      (by decide : (SortOrderDesc = ("" : String)) = False),
      (by decide : (SortOrderDesc == SortOrderAsc) = false),
      (by decide : (SortOrderDesc == SortOrderDesc) = true),
      (by decide : (Ordering.lt == Ordering.gt) = false),
      (by decide : (Ordering.eq == Ordering.gt) = false),
      (by decide : (Ordering.gt == Ordering.gt) = true)]

theorem sacd_le_iff (a b : EncryptionJob) :
    jobLess statusAscCreatedDesc b a = false ↔
      (strCompare (strToLower a.status) (strToLower b.status) = .lt ∨
        (strToLower a.status = strToLower b.status ∧ b.createdAt ≤ a.createdAt)) := by
  rcases hc : strCompare (strToLower b.status) (strToLower a.status) with _ | _ | _
  · rw [jobLess_sacd_of_lt b a hc]
    have hab : strCompare (strToLower a.status) (strToLower b.status) = .gt := by
      rw [strCompare_swap, hc]
      rfl
    constructor
    · intro h
      exact absurd h (by decide)
    · rintro (h | ⟨h, _⟩)
      · rw [h] at hab
        exact absurd hab (by decide)
      · have he := (strCompare_eq_iff (strToLower a.status) (strToLower b.status)).mpr h
        rw [he] at hab
        exact absurd hab (by decide)
  · rw [jobLess_sacd_of_eq b a hc]
    have heq : strToLower b.status = strToLower a.status := (strCompare_eq_iff _ _).mp hc
    constructor
    · intro h
      refine Or.inr ⟨heq.symm, ?_⟩
      by_contra hlt
      have hgt : compareInt64 b.createdAt a.createdAt = .gt := by
        rw [compareInt64_gt_iff]
        omega
      rw [hgt] at h
      exact absurd h (by decide)
    · rintro (h | ⟨_, hle⟩)
      · have he := (strCompare_eq_iff (strToLower a.status) (strToLower b.status)).mpr heq.symm
        rw [he] at h
        exact absurd h (by decide)
      · rcases hc2 : compareInt64 b.createdAt a.createdAt with _ | _ | _
        · decide
        · decide
        · rw [compareInt64_gt_iff] at hc2
          omega
  · rw [jobLess_sacd_of_gt b a hc]
    have hab : strCompare (strToLower a.status) (strToLower b.status) = .lt := by
      rw [strCompare_swap, hc]
      rfl
    exact iff_of_true rfl (Or.inl hab)

/-- **C6.**  `sortJobs` (the sorting step of `ListJobs`) is a stable sort
applying the sort fields in priority order: it defaults to `created_at`
descending on an empty field list; it is a deterministic function of its
input; it returns a permutation of the input; the first field decides
whenever it distinguishes and later fields are consulted only on ties;
`status`/`source_url` compare case-insensitively unless `case_sensitive` is
set while `id` always compares case-sensitively; it is stable (any pair
already in comparator-compatible order, in particular any tied pair, stays
in input order in the output); and under `status asc, created_at desc` the
output is pairwise ordered so that equal-status jobs keep descending
creation order. -/
theorem listjobs_sorting (jobs : List EncryptionJob) :
    (sortJobs jobs ⟨[]⟩ = sortJobs jobs ⟨defaultSortFields⟩) ∧
    (∀ (jobs' : List EncryptionJob) (s : JobSort), jobs = jobs' →
      sortJobs jobs s = sortJobs jobs' s) ∧
    (∀ s : JobSort, List.Perm (sortJobs jobs s) jobs) ∧
    (∀ (f : SortField) (rest : List SortField) (a b : EncryptionJob),
      (fieldComparison a b f ≠ .eq → jobLess (f :: rest) a b = jobLess [f] a b) ∧
      (fieldComparison a b f = .eq → jobLess (f :: rest) a b = jobLess rest a b)) ∧
    (∀ a b : String, compareStrings a b false = strCompare (strToLower a) (strToLower b) ∧
      compareStrings a b true = strCompare a b) ∧
    (∀ (a b : EncryptionJob) (ord : String) (cs : Bool),
      fieldComparison a b ⟨SortFieldID, ord, cs⟩ = strCompare a.id b.id) ∧
    (∀ (s : JobSort) (a b : EncryptionJob),
      jobLess (if s.fields = [] then defaultSortFields else s.fields) b a = false →
      List.Sublist [a, b] jobs → List.Sublist [a, b] (sortJobs jobs s)) ∧
    List.Pairwise
      (fun a b => strToLower a.status = strToLower b.status → b.createdAt ≤ a.createdAt)
      (sortJobs jobs ⟨statusAscCreatedDesc⟩) := by
  refine ⟨?_, ?_, ?_, ?_, ?_, ?_, ?_, ?_⟩
  · simp [sortJobs, defaultSortFields]
  · intro jobs' s h
    rw [h]
  · intro s
    exact List.perm_insertionSort _ jobs
  · intro f rest a b
    exact ⟨fun h => jobLess_first_decides f rest a b h, fun h => jobLess_tie_next f rest a b h⟩
  · intro a b
    exact ⟨rfl, rfl⟩
  · intro a b ord cs
    exact fieldComparison_id a b ord cs
  · intro s a b hr hsub
    exact List.pair_sublist_insertionSort hr hsub
  · haveI : IsTrans EncryptionJob
        (fun a b => jobLess statusAscCreatedDesc b a = false) := by
      constructor
      intro a b c hab hbc
      rw [sacd_le_iff] at hab hbc ⊢
      rcases hab with h1 | ⟨h1, hle1⟩ <;> rcases hbc with h2 | ⟨h2, hle2⟩
      · exact Or.inl (strCompare_lt_trans h1 h2)
      · exact Or.inl (h2 ▸ h1)
      · exact Or.inl (by rw [h1]; exact h2)
      · exact Or.inr ⟨h1.trans h2, le_trans hle2 hle1⟩
    haveI : IsTotal EncryptionJob
        (fun a b => jobLess statusAscCreatedDesc b a = false) := by
      constructor
      intro a b
      rw [sacd_le_iff, sacd_le_iff]
      rcases hsc : strCompare (strToLower a.status) (strToLower b.status) with _ | _ | _
      · exact Or.inl (Or.inl rfl)
      · have heq := (strCompare_eq_iff _ _).mp hsc
        rcases le_total b.createdAt a.createdAt with hle | hle
        · exact Or.inl (Or.inr ⟨heq, hle⟩)
        · exact Or.inr (Or.inr ⟨heq.symm, hle⟩)
      · refine Or.inr (Or.inl ?_)
        rw [strCompare_swap, hsc]
        rfl
    have hs := List.sorted_insertionSort
      (fun a b : EncryptionJob => jobLess statusAscCreatedDesc b a = false) jobs
    have hrw : sortJobs jobs ⟨statusAscCreatedDesc⟩ =
        List.insertionSort (fun a b => jobLess statusAscCreatedDesc b a = false) jobs := by
      simp [sortJobs, statusAscCreatedDesc]
    rw [hrw]
    refine hs.imp ?_
    intro a b hab
    rw [sacd_le_iff] at hab
    intro hsk
    rcases hab with h | ⟨_, hle⟩
    · have he := (strCompare_eq_iff (strToLower a.status) (strToLower b.status)).mpr hsk
      rw [he] at h
      exact absurd h (by decide)
    · exact hle



/-- **C7.**  For every filtered-and-sorted result, pagination never errors:
`ListJobs` always returns `ok` of the clamped slice
`(sorted.drop offset).take limit`; an offset at or beyond the result length
yields the empty sequence; and the page never exceeds `limit` items nor the
items remaining past the offset. -/
theorem pagination_clamps (jobs : List EncryptionJob) (limit offset : Nat)
    (filter : JobFilter) (s : JobSort) (hv : validateSortOptions s = .ok ()) :
    ListJobs jobs limit offset filter s =
      .ok (((sortJobs (jobs.filter (fun j => matchesFilter j filter)) s).drop offset).take
        limit) ∧
    ((sortJobs (jobs.filter (fun j => matchesFilter j filter)) s).length ≤ offset →
      ListJobs jobs limit offset filter s = .ok []) ∧
    (∀ out, ListJobs jobs limit offset filter s = .ok out →
      out.length ≤ limit ∧
      out.length ≤
        (sortJobs (jobs.filter (fun j => matchesFilter j filter)) s).length - offset) := by
  have hmain : ListJobs jobs limit offset filter s =
      .ok (((sortJobs (jobs.filter (fun j => matchesFilter j filter)) s).drop offset).take
        limit) := by
    simp only [ListJobs, hv]
    split_ifs with h
    · rw [List.drop_eq_nil_of_le (by omega), List.take_nil]
    · congr 1
      rw [List.take_eq_take]
      simp only [List.length_take, List.length_drop]
      omega
  refine ⟨hmain, ?_, ?_⟩
  · intro hle
    rw [hmain, List.drop_eq_nil_of_le hle, List.take_nil]
  · intro out hout
    rw [hmain] at hout
    obtain rfl : out = _ := by
      injection hout with h
      exact h.symm
    simp only [List.length_take, List.length_drop]
    omega



theorem lookupKey_setKey_self {β : Type} (l : List (String × β)) (k : String) (v : β) :
    lookupKey (setKey l k v) k = some v := by
  induction l with
  | nil => simp [setKey, lookupKey]
  | cons p rest ih =>
    obtain ⟨k', w⟩ := p
    unfold setKey
    split_ifs with h
    · simp [lookupKey]
    · unfold lookupKey
      rw [if_neg h]
      exact ih

theorem mem_map_snd_setKey {β : Type} (l : List (String × β)) (k : String) (v : β) :
    v ∈ (setKey l k v).map Prod.snd := by
  induction l with
  | nil => simp [setKey]
  | cons p rest ih =>
    obtain ⟨k', w⟩ := p
    unfold setKey
    split_ifs with h
    · simp
    · simp only [List.map_cons, List.mem_cons]
      exact Or.inr ih

theorem matchesBatchFilter_status_only (r' : BatchResult) (st : String) (hst : st ≠ "") :
    (matchesBatchFilter r' { status := st } = true) ↔ batchResultStatus r' = st := by
  unfold matchesBatchFilter
  split_ifs with h1 h2
  · exact absurd h1.1 hst
  · simp [h2.2]
  · simp only [List.all_nil, true_iff]
    push_neg at h2
    exact h2 hst

theorem batchResultStatus_classes (r' : BatchResult) (htj : 0 < r'.summary.totalJobs) :
    (batchResultStatus r' = "success" ↔
      r'.summary.successCount = r'.summary.totalJobs) ∧
    (batchResultStatus r' = "failed" ↔ r'.summary.successCount = 0) ∧
    (r'.summary.successCount ≤ r'.summary.totalJobs →
      (batchResultStatus r' = "partial" ↔
        (0 < r'.summary.successCount ∧
          r'.summary.successCount < r'.summary.totalJobs))) := by
  have hTJ : ((r'.summary.totalJobs : ℚ)) ≠ 0 := by
    exact_mod_cast Nat.pos_iff_ne_zero.mp htj
  have h1 : ((r'.summary.successCount : ℚ) / (r'.summary.totalJobs : ℚ) = 1) ↔
      r'.summary.successCount = r'.summary.totalJobs := by
    rw [div_eq_one_iff_eq hTJ]
    exact_mod_cast Iff.rfl
  have h0 : ((r'.summary.successCount : ℚ) / (r'.summary.totalJobs : ℚ) > 0) ↔
      0 < r'.summary.successCount := by
    constructor
    · intro hq
      by_contra hc
      have : r'.summary.successCount = 0 := by omega
      rw [this] at hq
      simp at hq
    · intro hsc
      apply div_pos
      · exact_mod_cast hsc
      · exact_mod_cast htj
  simp only [batchResultStatus]
  split_ifs with hq1 hq2
  · refine ⟨by simp [h1.mp hq1], ?_, ?_⟩
    · have := h1.mp hq1
      constructor
      · intro h; exact absurd h (by decide)
      · intro h; omega
    · intro _
      constructor
      · intro h; exact absurd h (by decide)
      · intro h
        have := h1.mp hq1
        omega
  · have hsc := h0.mp hq2
    have hne := (not_iff_not.mpr h1).mp hq1
    refine ⟨?_, ?_, ?_⟩
    · constructor
      · intro h; exact absurd h (by decide)
      · intro h; exact absurd h hne
    · constructor
      · intro h; exact absurd h (by decide)
      · intro h; omega
    · intro hle
      constructor
      · intro _
        exact ⟨hsc, by omega⟩
      · intro _
        rfl
  · have hq0 : ((r'.summary.successCount : ℚ) / (r'.summary.totalJobs : ℚ)) = 0 := by
      have hnonneg : (0:ℚ) ≤ (r'.summary.successCount : ℚ) / (r'.summary.totalJobs : ℚ) :=
        div_nonneg (by positivity) (by positivity)
      push_neg at hq2
      exact le_antisymm hq2 hnonneg
    have hsc0 : r'.summary.successCount = 0 := by
      rcases div_eq_zero_iff.mp hq0 with h | h
      · exact_mod_cast h
      · exact absurd h hTJ
    refine ⟨?_, by simp [hsc0], ?_⟩
    · constructor
      · intro h; exact absurd h (by decide)
      · intro h; omega
    · intro _
      constructor
      · intro h; exact absurd h (by decide)
      · intro h; omega

/-- **C8.**  Storing a `BatchResult` and fetching it by its batch ID returns
the stored value; listing with an empty filter includes it; listing with
`status="success"` contains exactly the stored results classified
`"success"`, i.e. those with `success_count = total_jobs` (`"failed"` those
with `success_count = 0`, `"partial"` the rest), so a result with
`success_count < total_jobs` is excluded from `status="success"`.  The
ratio arithmetic is in `ℚ`, exact for every result with
`total_jobs > 0` (all results `ProcessBatch` can produce). -/
theorem batch_result_roundtrip
    (batches : List (String × BatchResult)) (r : BatchResult)
    (htj : 0 < r.summary.totalJobs) :
    GetBatchResult (StoreBatchResult batches r) r.batchID = .ok r ∧
    r ∈ ListBatchResults (StoreBatchResult batches r) {} ∧
    (∀ r' : BatchResult, 0 < r'.summary.totalJobs →
      ((matchesBatchFilter r' { status := "success" } = true ↔
        r'.summary.successCount = r'.summary.totalJobs) ∧
       (matchesBatchFilter r' { status := "failed" } = true ↔
        r'.summary.successCount = 0) ∧
       (r'.summary.successCount ≤ r'.summary.totalJobs →
        (matchesBatchFilter r' { status := "partial" } = true ↔
          (0 < r'.summary.successCount ∧
            r'.summary.successCount < r'.summary.totalJobs))))) ∧
    (∀ (bs : List (String × BatchResult)) (r' : BatchResult),
      r' ∈ ListBatchResults bs { status := "success" } ↔
        (r' ∈ bs.map Prod.snd ∧ matchesBatchFilter r' { status := "success" } = true)) ∧
    (r.summary.successCount < r.summary.totalJobs →
      r ∉ ListBatchResults (StoreBatchResult batches r) { status := "success" }) := by
  have hmemchar : ∀ (bs : List (String × BatchResult)) (r' : BatchResult),
      r' ∈ ListBatchResults bs { status := "success" } ↔
        (r' ∈ bs.map Prod.snd ∧ matchesBatchFilter r' { status := "success" } = true) := by
    intro bs r'
    simp [ListBatchResults, List.mem_filter]
  refine ⟨?_, ?_, ?_, hmemchar, ?_⟩
  · unfold GetBatchResult StoreBatchResult
    rw [lookupKey_setKey_self]
  · apply List.mem_filter.mpr
    refine ⟨mem_map_snd_setKey _ _ _, ?_⟩
    simp [matchesBatchFilter]
  · intro r' htj'
    have hcl := batchResultStatus_classes r' htj'
    have hm := matchesBatchFilter_status_only r'
    refine ⟨(hm "success" (by decide)).trans hcl.1,
      (hm "failed" (by decide)).trans hcl.2.1, ?_⟩
    intro hle
    exact (hm "partial" (by decide)).trans (hcl.2.2 hle)
  · intro hlt hmem
    rw [hmemchar] at hmem
    have := ((matchesBatchFilter_status_only r "success" (by decide)).mp hmem.2)
    have := (batchResultStatus_classes r htj).1.mp this
    omega


/-- Witness for C6 on a concrete three-job collection. -/
theorem listjobs_sorting_witness :
    (sortJobs [jobInProgress2, jobInProgress, jobPaused] ⟨[]⟩ =
      sortJobs [jobInProgress2, jobInProgress, jobPaused] ⟨defaultSortFields⟩) ∧
    List.Sublist [jobInProgress2, jobInProgress]
      (sortJobs [jobInProgress2, jobInProgress, jobPaused] ⟨statusAscCreatedDesc⟩) ∧
    List.Pairwise
      (fun a b => strToLower a.status = strToLower b.status → b.createdAt ≤ a.createdAt)
      (sortJobs [jobInProgress2, jobInProgress, jobPaused] ⟨statusAscCreatedDesc⟩) := by
  have h := listjobs_sorting [jobInProgress2, jobInProgress, jobPaused]
  exact ⟨h.1,
    h.2.2.2.2.2.2.1 ⟨statusAscCreatedDesc⟩ jobInProgress2 jobInProgress
      (by decide) (by decide),
    h.2.2.2.2.2.2.2⟩

/-- Witness for C7: an offset past the end of the three-job collection
yields the empty page. -/
theorem pagination_clamps_witness :
    validateSortOptions (⟨[]⟩ : JobSort) = .ok () ∧
    (sortJobs ([jobInProgress, jobPaused, jobFailed].filter
      (fun j => matchesFilter j {})) ⟨[]⟩).length ≤ 5 ∧
    ListJobs [jobInProgress, jobPaused, jobFailed] 2 5 {} ⟨[]⟩ = .ok [] := by
  refine ⟨by decide, by decide, ?_⟩
  exact (pagination_clamps [jobInProgress, jobPaused, jobFailed] 2 5 {} ⟨[]⟩
    (by decide)).2.1 (by decide)

/-- Witness for C8 at a concrete partially-failed result. -/
theorem batch_result_roundtrip_witness :
    0 < partialResult.summary.totalJobs ∧
    partialResult.summary.successCount < partialResult.summary.totalJobs ∧
    GetBatchResult (StoreBatchResult [] partialResult) partialResult.batchID =
      .ok partialResult ∧
    partialResult ∈ ListBatchResults (StoreBatchResult [] partialResult) {} ∧
    partialResult ∉
      ListBatchResults (StoreBatchResult [] partialResult) { status := "success" } := by
  have h := batch_result_roundtrip [] partialResult (by decide)
  exact ⟨by decide, by decide, h.1, h.2.1, h.2.2.2.2 (by decide)⟩

end EE
